import Mathlib

/-!
Verification of the resilient fan-out aggregation core of the
price-compare-pro repository.

The development shallowly embeds the TypeScript source:

* `aggregatorService.searchAll` (apps/api/src/services/aggregator.ts)
* `BaseProviderService.normalizeQuantity` / `calculatePricePerUnit`
  (apps/api/src/services/providers/base.ts)
* `CircuitBreaker` (apps/api/src/middleware/circuit-breaker.ts)
* `RateLimiter` (token bucket, apps/api/src/utils/rate-limiter.ts)
* `CacheService` (in-memory map cache with TTL and namespace)
* `retry` (apps/api/src/services/retry-mechanism.ts)

JavaScript numbers are modelled as rationals (`ℚ`), `Date.now()`
timestamps as integers (milliseconds, `ℤ`) except in the cache where the
arithetic mixes with rational TTLs and everything is kept in `ℚ`.
`Map` objects are modelled as functions `String → Option β`.  Promise
rejection / thrown errors are modelled with `Except`.
-/

/-- JavaScript's `x || d` on numbers: `x` when truthy (non-zero), else `d`. -/
def jsOrQ (x : Option ℚ) (d : ℚ) : ℚ :=
  match x with
  | some q => if q = 0 then d else q
  | none => d

/-- JavaScript's `x || d` on integer-valued options. -/
def jsOrNat (x : Option Nat) (d : Nat) : Nat :=
  match x with
  | some n => if n = 0 then d else n
  | none => d

/-- A JavaScript `Map` keyed by strings, modelled extensionally. -/
def JsMap (β : Type) : Type := String → Option β

/-- The empty `Map`. -/
def JsMap.empty {β : Type} : JsMap β := fun _ => none

/-- `map.set(k, v)` — overwrites any previous binding of `k`. -/
def JsMap.set {β : Type} (m : JsMap β) (k : String) (v : β) : JsMap β :=
  fun k' => if k' = k then some v else m k'

/-- `map.delete(k)`. -/
def JsMap.del {β : Type} (m : JsMap β) (k : String) : JsMap β :=
  fun k' => if k' = k then none else m k'

/-- `map.get(k)` (`undefined` becomes `none`). -/
def JsMap.get {β : Type} (m : JsMap β) (k : String) : Option β := m k

/-! ## Quotes and the aggregator (apps/api/src/services/aggregator.ts)

A `PriceComparison` as produced by the provider services.  The delivery
ETA is carried as the leading integer that JavaScript's
`parseInt(deliveryETA)` extracts from the ETA string (the only use the
aggregator makes of the field). -/

structure Quote where
  platform : String
  price : ℚ
  originalPrice : ℚ
  deliveryFee : ℚ
  platformFee : ℚ
  effectivePrice : ℚ
  pricePerUnit : ℚ
  deliveryETA : ℤ
  inStock : Bool
  isCheapest : Bool
  isFastest : Bool
  badge : Option String
deriving DecidableEq

/-- Runtime errors raised by the JavaScript engine itself. -/
inductive JsError where
  /-- `TypeError: Reduce of empty array with no initial value`. -/
  | reduceOfEmptyArray
deriving DecidableEq

/-- Index tracking for
`allResults.reduce((prev, current) => parseInt(current.deliveryETA) < parseInt(prev.deliveryETA) ? current : prev)`:
folds over the tail keeping the running best element together with its
index in the array. -/
def fastestFold : Nat × Quote → Nat → List Quote → Nat × Quote
  | acc, _, [] => acc
  | (bi, bq), i, c :: rest =>
    if c.deliveryETA < bq.deliveryETA then fastestFold (i, c) (i + 1) rest
    else fastestFold (bi, bq) (i + 1) rest

/-- In-place update of the array element at index `i`. -/
def modifyAt : List Quote → Nat → (Quote → Quote) → List Quote
  | [], _, _ => []
  | q :: qs, 0, f => f q :: qs
  | q :: qs, n + 1, f => q :: modifyAt qs n f

/-- `aggregatorService.searchAll(query, lat, lng, providers)`: the input is
the list of settled provider promises (`Promise.allSettled`), each either a
rejection or a fulfilled list of quotes.  Rejections are filtered out, the
fulfilled lists are flattened, sorted ascending by `effectivePrice`
(`Array.prototype.sort` is stable), the first element gets the `Cheapest`
badge, and the minimum-ETA element — selected by an *unguarded* `reduce` —
gets the `Fastest` badge when it is not the same array element as the
cheapest one.  On an empty merged array the `reduce` call throws
`TypeError: Reduce of empty array with no initial value`. -/
def searchAll (settled : List (Except String (List Quote))) :
    Except JsError (List Quote) :=
  let allResults := (settled.filterMap Except.toOption).flatten
  match allResults.mergeSort (fun a b => a.effectivePrice ≤ b.effectivePrice) with
  | [] => Except.error JsError.reduceOfEmptyArray
  | q :: qs =>
    let q' := { q with isCheapest := true, badge := some "Cheapest" }
    let fi := (fastestFold (0, q') 1 qs).1
    Except.ok <|
      if fi = 0 then q' :: qs
      else modifyAt (q' :: qs) fi
        (fun f => { f with isFastest := true, badge := some "Fastest" })

/-! ## Unit normalization (apps/api/src/services/providers/base.ts) -/

/-- `BaseProviderService.normalizeQuantity(quantity, unit)`:
`unitMap = { g: q, ml: q, kg: q*1000, l: q*1000, pieces: q }`, returning
`unitMap[unit] || quantity` (so an unknown unit, or a falsy mapped value,
falls back to the raw quantity). -/
def normalizeQuantity (quantity : ℚ) (unit : String) : ℚ :=
  let mapped : Option ℚ :=
    if unit = "g" then some quantity
    else if unit = "ml" then some quantity
    else if unit = "kg" then some (quantity * 1000)
    else if unit = "l" then some (quantity * 1000)
    else if unit = "pieces" then some quantity
    else none
  match mapped with
  | some x => if x = 0 then quantity else x
  | none => quantity

/-- `BaseProviderService.calculatePricePerUnit(price, quantity, unit)`:
the divisor is `baseQty / 100` exactly when `unit` is `'ml'` or `'g'`,
otherwise the raw `quantity`; a non-positive divisor yields `0`. -/
def calculatePricePerUnit (price quantity : ℚ) (unit : String) : ℚ :=
  let baseQty := normalizeQuantity quantity unit
  let divisor := if unit = "ml" ∨ unit = "g" then baseQty / 100 else quantity
  if divisor > 0 then price / divisor else 0

/-! ## Circuit breaker (apps/api/src/middleware/circuit-breaker.ts) -/

inductive BreakerStatus where
  | CLOSED
  | OPEN
  | HALF_OPEN
deriving DecidableEq

structure CircuitState where
  status : BreakerStatus
  failures : Nat
  lastFailureTime : ℤ
  successCount : Nat
deriving DecidableEq

/-- The initial `CircuitBreaker` state. -/
def initialCircuit : CircuitState :=
  { status := .CLOSED, failures := 0, lastFailureTime := 0, successCount := 0 }

def failureThreshold : Nat := 5
def successThreshold : Nat := 2
def breakerTimeout : ℤ := 60000

/-- `CircuitBreaker.isOpen()` evaluated at time `now`; returns the boolean
together with the (possibly mutated) state, since an elapsed cool-down
transitions the breaker to `HALF_OPEN` (`halfOpen()` resets
`successCount`). -/
def isOpen (s : CircuitState) (now : ℤ) : Bool × CircuitState :=
  match s.status with
  | .OPEN =>
    if now - s.lastFailureTime > breakerTimeout then
      (false, { s with status := .HALF_OPEN, successCount := 0 })
    else (true, s)
  | _ => (false, s)

/-- `CircuitBreaker.recordSuccess()`. -/
def recordSuccess (s : CircuitState) : CircuitState :=
  match s.status with
  | .HALF_OPEN =>
    let sc := s.successCount + 1
    if sc ≥ successThreshold then
      { status := .CLOSED, failures := 0, lastFailureTime := s.lastFailureTime,
        successCount := 0 }
    else { s with successCount := sc }
  | .CLOSED => { s with failures := 0 }
  | .OPEN => s

/-- `CircuitBreaker.recordFailure()` at time `now`; `open()` re-stamps
`lastFailureTime` with the same `Date.now()` value. -/
def recordFailure (s : CircuitState) (now : ℤ) : CircuitState :=
  let s1 := { s with failures := s.failures + 1, lastFailureTime := now }
  if s1.failures ≥ failureThreshold then
    { s1 with status := .OPEN, lastFailureTime := now }
  else s1

/-- External events driving one breaker instance. -/
inductive CBEvent where
  | fail (t : ℤ)
  | success
  | query (t : ℤ)

def cbStep (s : CircuitState) (e : CBEvent) : CircuitState :=
  match e with
  | .fail t => recordFailure s t
  | .success => recordSuccess s
  | .query t => (isOpen s t).2

/-- The breaker state reached from the initial state by a list of events. -/
def cbRun (es : List CBEvent) : CircuitState :=
  es.foldl cbStep initialCircuit

/-! ## Token-bucket rate limiter (apps/api/src/utils/rate-limiter.ts) -/

structure Bucket where
  tokens : ℚ
  lastRefillTime : ℤ
deriving DecidableEq

def rlCapacity : ℚ := 100
def rlRefillRate : ℚ := 10
def rlRefillInterval : ℚ := 1000

/-- `RateLimiter.refillBucket(bucket)` at time `now`. -/
def refillBucket (b : Bucket) (now : ℤ) : Bucket :=
  let timePassed : ℚ := (now : ℚ) - (b.lastRefillTime : ℚ)
  let tokensToAdd := timePassed / rlRefillInterval * rlRefillRate
  { tokens := min rlCapacity (b.tokens + tokensToAdd), lastRefillTime := now }

/-- `RateLimiter.allowRequest(clientId)` at time `now`: a missing bucket is
created full, the bucket is refilled lazily, then one token is consumed iff
at least one is available.  The mutated bucket is what the `Map` holds
afterwards. -/
def allowRequest (m : JsMap Bucket) (clientId : String) (now : ℤ) :
    Bool × JsMap Bucket :=
  let bucket := (m clientId).getD { tokens := rlCapacity, lastRefillTime := now }
  let b1 := refillBucket bucket now
  if b1.tokens ≥ 1 then
    (true, m.set clientId { tokens := b1.tokens - 1, lastRefillTime := now })
  else
    (false, m.set clientId b1)

/-- `RateLimiter.getRetryAfter(clientId)`:
`Math.ceil((1 - bucket.tokens) / refillRate)`, `0` for an unknown key. -/
def getRetryAfter (m : JsMap Bucket) (clientId : String) : ℤ :=
  match m clientId with
  | none => 0
  | some b => ⌈(1 - b.tokens) / rlRefillRate⌉

/-- Repeated `allowRequest` calls for one client at one instant, returning
the list of boolean answers and the final limiter state. -/
def applyCalls (m : JsMap Bucket) (clientId : String) (now : ℤ) :
    Nat → List Bool × JsMap Bucket
  | 0 => ([], m)
  | n + 1 =>
    let (b, m') := allowRequest m clientId now
    let (bs, m'') := applyCalls m' clientId now n
    (b :: bs, m'')

/-- A sequence of `allowRequest` calls, each a `(clientId, time)` pair. -/
def runCalls (m : JsMap Bucket) : List (String × ℤ) → JsMap Bucket
  | [] => m
  | (id, t) :: rest => runCalls (allowRequest m id t).2 rest

/-! ## Cache service (CacheService with TTL and namespace options) -/

structure CacheOptions where
  ttl : Option ℚ := none
  namespace' : Option String := none

structure CacheEntry (α : Type) where
  value : α
  expires : ℚ
deriving DecidableEq

/-- `CacheService.get(key)` at time `now`: a read past expiry deletes the
entry and reports a miss.  Returns the value (or `null`) together with the
map after the lazy-expiry deletion. -/
def cacheGet {α : Type} (m : JsMap (CacheEntry α)) (key : String) (now : ℚ) :
    Option α × JsMap (CacheEntry α) :=
  match m key with
  | none => (none, m)
  | some item =>
    if now > item.expires then (none, m.del key)
    else (some item.value, m)

/-- `CacheService.set(key, value, options)` at time `now`:
`ttl = options.ttl || 300`, the final key is `namespace + ":" + key` when a
truthy namespace is supplied, and `expires = now + ttl * 1000`. -/
def cacheSet {α : Type} (m : JsMap (CacheEntry α)) (key : String) (v : α)
    (options : CacheOptions) (now : ℚ) : JsMap (CacheEntry α) :=
  let ttl := jsOrQ options.ttl 300
  let ns := match options.namespace' with
    | some s => if s = "" then "" else s ++ ":"
    | none => ""
  m.set (ns ++ key) { value := v, expires := now + ttl * 1000 }

/-- `CacheService.getOrSet(key, fn, options)` at time `now`.  The compute
callback is modelled by the value `fnVal` it would produce on this call;
`truthy` is JavaScript truthiness on the cached value type (the source
tests `if (cached)`).  Returns the produced value and the updated map. -/
def getOrSet {α : Type} (truthy : α → Bool) (m : JsMap (CacheEntry α))
    (key : String) (fnVal : α) (options : CacheOptions) (now : ℚ) :
    α × JsMap (CacheEntry α) :=
  let (cached, m1) := cacheGet m key now
  match cached with
  | some c =>
    if truthy c then (c, m1)
    else (fnVal, cacheSet m1 key fnVal options now)
  | none => (fnVal, cacheSet m1 key fnVal options now)

/-! ## Retry with backoff (apps/api/src/services/retry-mechanism.ts) -/

structure RetryOptions where
  maxAttempts : Option Nat := none
  delay : Option ℚ := none
  backoff : Option ℚ := none

/-- The retry loop.  `f k` is the outcome of the `k`-th invocation of the
operation (1-indexed).  `remaining` counts the attempts still permitted
(including the current one); the loop breaks and re-throws when the
current attempt is the last (`attempt === maxAttempts` in the source).
Returns the final outcome (`Except.error none` models the unreachable
`new Error('Max retries exceeded')` raised when no attempt ran), the
number of invocations performed, and the list of `onRetry` events
`(attempt, error, wait)` where `wait = delay * backoff ^ (attempt - 1)`
is slept before the next attempt. -/
def retryFrom {E A : Type} (f : Nat → Except E A) (delay backoff : ℚ) :
    Nat → Nat → Except (Option E) A × Nat × List (Nat × E × ℚ)
  | 0, _ => (Except.error none, 0, [])
  | remaining + 1, attempt =>
    match f attempt with
    | Except.ok a => (Except.ok a, 1, [])
    | Except.error e =>
      if remaining = 0 then (Except.error (some e), 1, [])
      else
        let (res, calls, evs) :=
          retryFrom f delay backoff remaining (attempt + 1)
        (res, calls + 1, (attempt, e, delay * backoff ^ (attempt - 1)) :: evs)

/-- `retry(fn, options)` with JavaScript defaults
`maxAttempts = options.maxAttempts || 3`, `delay = options.delay || 1000`,
`backoff = options.backoff || 1`. -/
def retry {E A : Type} (f : Nat → Except E A) (options : RetryOptions) :
    Except (Option E) A × Nat × List (Nat × E × ℚ) :=
  retryFrom f (jsOrQ options.delay 1000) (jsOrQ options.backoff 1)
    (jsOrNat options.maxAttempts 3) 1

theorem retryFrom_zero {E A : Type} (f : Nat → Except E A) (d b : ℚ)
    (a : Nat) : retryFrom f d b 0 a = (Except.error none, 0, []) := rfl

theorem retryFrom_succ {E A : Type} (f : Nat → Except E A) (d b : ℚ)
    (r a : Nat) :
    retryFrom f d b (r + 1) a =
      match f a with
      | Except.ok v => (Except.ok v, 1, [])
      | Except.error e =>
        if r = 0 then (Except.error (some e), 1, [])
        else
          let (res, calls, evs) := retryFrom f d b r (a + 1)
          (res, calls + 1, (a, e, d * b ^ (a - 1)) :: evs) := rfl

/-! ## Claims about the aggregator (C1, C2) -/

/-- Claim C1 (code evaluation at the failing input): with one provider
rejecting and one fulfilling with zero quotes, `searchAll` does *not*
return the empty union — the unguarded `reduce` over the empty merged
array throws.  The claim that a mix of failing and succeeding providers
always yields the (possibly empty) union of the successes without raising
is therefore violated by the source exactly when the union is empty. -/
theorem searchAll_throws_on_empty_union :
    searchAll [Except.error "network failure", Except.ok []] =
      Except.error JsError.reduceOfEmptyArray := by
  simp [searchAll, Except.toOption, List.mergeSort_nil]

/-- Claim C2 (code evaluation at the failing input): on an empty merged
result set (here: a single provider fulfilling with zero quotes, as also
happens for the `providers = []` call in `route.ts`), `searchAll` throws
`TypeError: Reduce of empty array with no initial value` instead of
returning `[]`. -/
theorem searchAll_throws_on_empty_results :
    searchAll [Except.ok []] = Except.error JsError.reduceOfEmptyArray := by
  simp [searchAll, Except.toOption, List.mergeSort_nil]

/-! ## Claims about unit normalization (C3) -/

/-- Claim C3 (counterexample): for `1 kg` at price `100`, the code divides
by the *raw* quantity (`kg` is not in `['ml','g']`), giving `100`, whereas
the claimed price-per-100-base-units formula for a mass unit gives
`100 / (1000 / 100) = 10`. -/
theorem calculatePricePerUnit_kg_counterexample :
    calculatePricePerUnit 100 1 "kg" = 100 ∧
    (100 : ℚ) / (normalizeQuantity 1 "kg" / 100) = 10 ∧
    calculatePricePerUnit 100 1 "kg" ≠
      (100 : ℚ) / (normalizeQuantity 1 "kg" / 100) := by
  refine ⟨?_, ?_, ?_⟩ <;>
    norm_num +decide [calculatePricePerUnit, normalizeQuantity]

/-- Claim C3 (amended): the per-100-base-units divisor is applied only for
the units `'g'` and `'ml'`; every other unit (including the mass/volume
units `'kg'` and `'l'`) divides by the raw quantity.  A non-positive
divisor yields `0` instead of raising.  `500 g` normalizes to base
quantity `500`, `1 kg` to `1000`, and price `100` for `500 g` yields
price-per-100-base-units `20`. -/
theorem calculatePricePerUnit_formula (p q : ℚ) (u : String) :
    ((u = "g" ∨ u = "ml") →
      calculatePricePerUnit p q u =
        if normalizeQuantity q u / 100 > 0 then p / (normalizeQuantity q u / 100)
        else 0) ∧
    ((u ≠ "g" ∧ u ≠ "ml") →
      calculatePricePerUnit p q u = if q > 0 then p / q else 0) ∧
    normalizeQuantity 500 "g" = 500 ∧
    normalizeQuantity 1 "kg" = 1000 ∧
    calculatePricePerUnit 100 500 "g" = 20 := by
  refine ⟨?_, ?_, ?_, ?_, ?_⟩
  · rintro (rfl | rfl) <;> simp [calculatePricePerUnit]
  · rintro ⟨hg, hml⟩
    simp [calculatePricePerUnit, hg, hml]
  · norm_num +decide [normalizeQuantity]
  · norm_num +decide [normalizeQuantity]
  · norm_num +decide [calculatePricePerUnit, normalizeQuantity]

/-- Claim C3 witness: the amended formula applied at `(100, 500, "g")` and
at `(100, 7, "pieces")`. -/
theorem calculatePricePerUnit_formula_witness :
    (calculatePricePerUnit 100 500 "g" =
      if normalizeQuantity 500 "g" / 100 > 0
      then (100 : ℚ) / (normalizeQuantity 500 "g" / 100) else 0) ∧
    (calculatePricePerUnit 100 7 "pieces" =
      if (7 : ℚ) > 0 then (100 : ℚ) / 7 else 0) :=
  ⟨(calculatePricePerUnit_formula 100 500 "g").1 (Or.inl rfl),
   (calculatePricePerUnit_formula 100 7 "pieces").2.1 ⟨by decide, by decide⟩⟩

/-! ## Claims about the circuit breaker (C4) -/

/-- Reachable breaker states that are not `CLOSED` carry at least
`failureThreshold` recorded failures: `open()` is only entered at the
threshold, `halfOpen()` preserves the counter, and only `close()` /
`recordSuccess` in `CLOSED` reset it. -/
def cbInv (s : CircuitState) : Prop :=
  s.status ≠ .CLOSED → s.failures ≥ failureThreshold

theorem cbInv_initial : cbInv initialCircuit := by
  intro h
  exact absurd rfl h

theorem cbInv_step (s : CircuitState) (e : CBEvent) (h : cbInv s) :
    cbInv (cbStep s e) := by
  obtain ⟨st, f, lt, sc⟩ := s
  dsimp only [cbInv] at h ⊢
  cases e with
  | fail t =>
    dsimp only [cbStep, recordFailure]
    by_cases hf : f + 1 ≥ failureThreshold
    · rw [if_pos hf]
      intro _
      exact hf
    · rw [if_neg hf]
      intro hst
      have := h hst
      omega
  | success =>
    cases st with
    | CLOSED =>
      dsimp only [cbStep, recordSuccess]
      intro hc
      exact absurd rfl hc
    | OPEN =>
      dsimp only [cbStep, recordSuccess]
      exact h
    | HALF_OPEN =>
      dsimp only [cbStep, recordSuccess]
      by_cases hsc : sc + 1 ≥ successThreshold
      · rw [if_pos hsc]
        intro hc
        exact absurd rfl hc
      · rw [if_neg hsc]
        intro _
        exact h (by decide)
  | query t =>
    cases st with
    | CLOSED =>
      dsimp only [cbStep, isOpen]
      exact h
    | HALF_OPEN =>
      dsimp only [cbStep, isOpen]
      exact h
    | OPEN =>
      dsimp only [cbStep, isOpen]
      by_cases hq : t - lt > breakerTimeout
      · rw [if_pos hq]
        intro _
        exact h (by decide)
      · rw [if_neg hq]
        exact h

theorem cbInv_run (es : List CBEvent) : cbInv (cbRun es) := by
  suffices h : ∀ (s : CircuitState), cbInv s → cbInv (es.foldl cbStep s) from
    h initialCircuit cbInv_initial
  induction es with
  | nil => exact fun s hs => hs
  | cons e rest ih =>
    intro s hs
    exact ih (cbStep s e) (cbInv_step s e hs)

/-- Claim C4: the circuit breaker lifecycle.
1. From `CLOSED`, four consecutive failures leave the breaker closed and
   `isOpen()` false; the fifth failure opens it and `isOpen()` reports
   true for any query within the 60 s cool-down of the last failure.
2. Once strictly more than 60 s have elapsed since the last failure, the
   next `isOpen()` query moves an `OPEN` breaker to `HALF_OPEN`
   (resetting the success counter) and returns false.
3. Two consecutive `recordSuccess` calls from any `HALF_OPEN` state close
   the breaker.
4. From any reachable `HALF_OPEN` state, a single `recordFailure`
   re-opens the breaker. -/
theorem circuitBreaker_lifecycle :
    (∀ t1 t2 t3 t4 t5 tq : ℤ,
      (cbRun [.fail t1, .fail t2, .fail t3, .fail t4]).status = .CLOSED ∧
      (isOpen (cbRun [.fail t1, .fail t2, .fail t3, .fail t4]) tq).1 = false ∧
      (cbRun [.fail t1, .fail t2, .fail t3, .fail t4, .fail t5]).status = .OPEN ∧
      (tq - t5 ≤ breakerTimeout →
        (isOpen (cbRun [.fail t1, .fail t2, .fail t3, .fail t4, .fail t5]) tq).1
          = true)) ∧
    (∀ (s : CircuitState) (tq : ℤ), s.status = .OPEN →
      tq - s.lastFailureTime > breakerTimeout →
      isOpen s tq = (false, { s with status := .HALF_OPEN, successCount := 0 })) ∧
    (∀ s : CircuitState, s.status = .HALF_OPEN →
      (recordSuccess (recordSuccess s)).status = .CLOSED) ∧
    (∀ (es : List CBEvent) (t : ℤ), (cbRun es).status = .HALF_OPEN →
      (recordFailure (cbRun es) t).status = .OPEN) := by
  refine ⟨?_, ?_, ?_, ?_⟩
  · intro t1 t2 t3 t4 t5 tq
    refine ⟨?_, ?_, ?_, ?_⟩
    · simp [cbRun, cbStep, recordFailure, initialCircuit, failureThreshold]
    · simp [cbRun, cbStep, recordFailure, initialCircuit, failureThreshold, isOpen]
    · simp [cbRun, cbStep, recordFailure, initialCircuit, failureThreshold]
    · intro hq
      have hq' : ¬ (tq - t5 > breakerTimeout) := by omega
      simp [cbRun, cbStep, recordFailure, initialCircuit, failureThreshold,
        isOpen, hq']
  · intro s tq hst hq
    simp [isOpen, hst, hq]
  · intro s hs
    obtain ⟨st, f, lt, sc⟩ := s
    dsimp only at hs
    subst hs
    dsimp only [recordSuccess]
    by_cases hc : sc + 1 ≥ successThreshold
    · rw [if_pos hc]
    · rw [if_neg hc]
      dsimp only [recordSuccess]
      rw [if_pos (by simp only [successThreshold] at hc ⊢; omega)]
  · intro es t hs
    have hinv := cbInv_run es
    have hfail : (cbRun es).failures ≥ failureThreshold := hinv (by simp [hs])
    dsimp only [recordFailure]
    rw [if_pos (by omega)]

/-- Claim C4 witness: the lifecycle applied at concrete times — five
failures at time 0, a query at 60001 ms (past the cool-down), and the
resulting half-open state. -/
theorem circuitBreaker_lifecycle_witness :
    ((cbRun [.fail 0, .fail 0, .fail 0, .fail 0]).status = .CLOSED ∧
      (isOpen (cbRun [.fail 0, .fail 0, .fail 0, .fail 0]) 0).1 = false ∧
      (cbRun [.fail 0, .fail 0, .fail 0, .fail 0, .fail 0]).status = .OPEN ∧
      ((0 : ℤ) - 0 ≤ breakerTimeout →
        (isOpen (cbRun [.fail 0, .fail 0, .fail 0, .fail 0, .fail 0]) 0).1
          = true)) ∧
    isOpen (cbRun [.fail 0, .fail 0, .fail 0, .fail 0, .fail 0]) 60001 =
      (false, { cbRun [.fail 0, .fail 0, .fail 0, .fail 0, .fail 0] with
        status := .HALF_OPEN, successCount := 0 }) ∧
    (recordSuccess (recordSuccess
      (isOpen (cbRun [.fail 0, .fail 0, .fail 0, .fail 0, .fail 0]) 60001).2)).status
      = .CLOSED ∧
    (recordFailure
      (cbRun [.fail 0, .fail 0, .fail 0, .fail 0, .fail 0, .query 60001]) 70000).status
      = .OPEN :=
  ⟨circuitBreaker_lifecycle.1 0 0 0 0 0 0,
   circuitBreaker_lifecycle.2.1 _ 60001 (by decide) (by decide),
   circuitBreaker_lifecycle.2.2.1 _ (by decide),
   circuitBreaker_lifecycle.2.2.2 _ 70000 (by decide)⟩

/-! ## Claims about the rate limiter (C5, C6, C10) -/

theorem jsMap_set_self {β : Type} (m : JsMap β) (k : String) (v : β) :
    (m.set k v) k = some v := by
  simp [JsMap.set]

/-- Refilling at the bucket's own refill instant adds zero tokens. -/
theorem refillBucket_same_time (k : ℚ) (t : ℤ) (hk : k ≤ rlCapacity) :
    refillBucket ⟨k, t⟩ t = ⟨k, t⟩ := by
  simp [refillBucket, min_eq_right hk]

theorem allowRequest_grant (m : JsMap Bucket) (id : String) (t : ℤ) (k : ℚ)
    (hm : m id = some ⟨k, t⟩) (hk1 : 1 ≤ k) (hk2 : k ≤ rlCapacity) :
    allowRequest m id t = (true, m.set id ⟨k - 1, t⟩) := by
  dsimp only [allowRequest]
  rw [hm]
  dsimp only [Option.getD]
  rw [refillBucket_same_time k t hk2]
  rw [if_pos hk1]

theorem allowRequest_deny (m : JsMap Bucket) (id : String) (t : ℤ) (k : ℚ)
    (hm : m id = some ⟨k, t⟩) (hk1 : ¬ (1 : ℚ) ≤ k) (hk2 : k ≤ rlCapacity) :
    allowRequest m id t = (false, m.set id ⟨k, t⟩) := by
  dsimp only [allowRequest]
  rw [hm]
  dsimp only [Option.getD]
  rw [refillBucket_same_time k t hk2]
  rw [if_neg hk1]

theorem allowRequest_fresh (m : JsMap Bucket) (id : String) (t : ℤ)
    (hm : m id = none) :
    allowRequest m id t = (true, m.set id ⟨rlCapacity - 1, t⟩) := by
  dsimp only [allowRequest]
  rw [hm]
  dsimp only [Option.getD]
  rw [refillBucket_same_time rlCapacity t le_rfl]
  rw [if_pos (by norm_num [rlCapacity])]

/-- One unfolding step of `applyCalls`. -/
theorem applyCalls_succ (m : JsMap Bucket) (id : String) (t : ℤ) (n : ℕ) :
    applyCalls m id t (n + 1) =
      ((allowRequest m id t).1 ::
        (applyCalls (allowRequest m id t).2 id t n).1,
       (applyCalls (allowRequest m id t).2 id t n).2) := by
  dsimp only [applyCalls]

/-- A bucket holding exactly `j` tokens (timestamp unchanged) grants the
next `j` immediate calls and denies the `(j+1)`-th. -/
theorem applyCalls_exhaust (id : String) (t : ℤ) :
    ∀ (j : ℕ) (m : JsMap Bucket), m id = some ⟨(j : ℚ), t⟩ →
      (j : ℚ) ≤ rlCapacity →
      (applyCalls m id t (j + 1)).1 = List.replicate j true ++ [false]
  | 0, m, hm, _ => by
    rw [Nat.cast_zero] at hm
    rw [applyCalls_succ,
      allowRequest_deny m id t 0 hm (by norm_num) (by norm_num [rlCapacity])]
    simp [applyCalls]
  | j + 1, m, hm, hle => by
    rw [Nat.cast_add, Nat.cast_one] at hm hle
    have h0 : (0 : ℚ) ≤ (j : ℚ) := Nat.cast_nonneg j
    rw [applyCalls_succ,
      allowRequest_grant m id t ((j : ℚ) + 1) hm (by linarith) hle]
    have hm' : (m.set id ⟨(j : ℚ) + 1 - 1, t⟩) id = some ⟨(j : ℚ), t⟩ := by
      simp [JsMap.set]
    dsimp only
    rw [applyCalls_exhaust id t j _ hm' (by linarith)]
    simp [List.replicate_succ]

/-- Claim C5: token-bucket admission.
1. A fresh client key is granted exactly the first 100 immediate calls
   and denied the 101st (no time elapsing between calls).
2. The lazy refill computes
   `min(capacity, tokens + (now - lastRefill) / interval * rate)` and
   stamps the refill time.
3. A call is granted, consuming exactly one token from the refilled
   bucket, iff the refilled bucket holds at least 1 token.
4. A denied call stores the refilled bucket unchanged — no mutation
   beyond the refill. -/
theorem rateLimiter_token_bucket :
    (∀ (m : JsMap Bucket) (id : String) (t : ℤ), m id = none →
      (applyCalls m id t 101).1 = List.replicate 100 true ++ [false]) ∧
    (∀ (b : Bucket) (now : ℤ), refillBucket b now =
      ⟨min rlCapacity (b.tokens +
        ((now : ℚ) - (b.lastRefillTime : ℚ)) / rlRefillInterval * rlRefillRate),
       now⟩) ∧
    (∀ (m : JsMap Bucket) (id : String) (now : ℤ),
      1 ≤ (refillBucket ((m id).getD ⟨rlCapacity, now⟩) now).tokens →
      allowRequest m id now = (true, m.set id
        ⟨(refillBucket ((m id).getD ⟨rlCapacity, now⟩) now).tokens - 1, now⟩)) ∧
    (∀ (m : JsMap Bucket) (id : String) (now : ℤ),
      ¬ 1 ≤ (refillBucket ((m id).getD ⟨rlCapacity, now⟩) now).tokens →
      allowRequest m id now =
        (false, m.set id (refillBucket ((m id).getD ⟨rlCapacity, now⟩) now))) := by
  refine ⟨?_, ?_, ?_, ?_⟩
  · intro m id t hm
    have h1 : allowRequest m id t = (true, m.set id ⟨rlCapacity - 1, t⟩) :=
      allowRequest_fresh m id t hm
    have hm' : (m.set id ⟨rlCapacity - 1, t⟩) id = some ⟨((99 : ℕ) : ℚ), t⟩ := by
      rw [jsMap_set_self]
      norm_num [rlCapacity]
    have h2 := applyCalls_exhaust id t 99 _ hm' (by norm_num [rlCapacity])
    show (applyCalls m id t (100 + 1)).1 = _
    rw [applyCalls_succ, h1]
    dsimp only
    rw [show (100 : ℕ) = 99 + 1 from rfl, h2]
    decide
  · intro b now
    rfl
  · intro m id now h
    dsimp only [allowRequest]
    rw [if_pos h]
  · intro m id now h
    dsimp only [allowRequest]
    rw [if_neg h]

/-- Claim C5 witness: a fresh client at time 0 is granted 100 calls and
denied the 101st. -/
theorem rateLimiter_token_bucket_witness :
    (applyCalls JsMap.empty "client" 0 101).1 =
      List.replicate 100 true ++ [false] :=
  rateLimiter_token_bucket.1 JsMap.empty "client" 0 rfl

/-- Claim C6 (counterexample): a client whose bucket holds 98 tokens —

reachable by two granted calls from a fresh bucket — has at least 1 token
available, yet `getRetryAfter` returns `⌈(1 - 98) / 10⌉ = -9`, not `0`. -/
theorem getRetryAfter_negative_counterexample :
    (1 : ℚ) ≤ (Bucket.mk 98 0).tokens ∧
    getRetryAfter (JsMap.set JsMap.empty "client" ⟨98, 0⟩) "client" = -9 := by
  constructor
  · norm_num
  · rw [getRetryAfter, jsMap_set_self]
    norm_num [rlRefillRate, Int.ceil_eq_iff]

/-- Claim C6 (amended): `getRetryAfter` returns `0` for an unknown key;
for a known bucket it returns `⌈(1 - tokens) / refillRate⌉`.  When fewer
than 1 token is available this is a non-negative number of seconds after
which the refill yields at least 1 token; when at least 1 token is already
available, the result is `≤ 0` (and can be negative) rather than `0`. -/
theorem getRetryAfter_formula :
    (∀ (m : JsMap Bucket) (id : String), m id = none →
      getRetryAfter m id = 0) ∧
    (∀ (m : JsMap Bucket) (id : String) (b : Bucket), m id = some b →
      getRetryAfter m id = ⌈(1 - b.tokens) / rlRefillRate⌉ ∧
      (b.tokens < 1 →
        0 ≤ getRetryAfter m id ∧
        1 ≤ b.tokens + (getRetryAfter m id : ℚ) * rlRefillRate) ∧
      (1 ≤ b.tokens → getRetryAfter m id ≤ 0)) := by
  constructor
  · intro m id hm
    rw [getRetryAfter, hm]
  · intro m id b hm
    have hval : getRetryAfter m id = ⌈(1 - b.tokens) / rlRefillRate⌉ := by
      rw [getRetryAfter, hm]
    refine ⟨hval, ?_, ?_⟩
    · intro hlt
      have hpos : (0 : ℚ) ≤ (1 - b.tokens) / rlRefillRate := by
        apply div_nonneg (by linarith)
        norm_num [rlRefillRate]
    
      refine ⟨hval ▸ Int.ceil_nonneg hpos, ?_⟩
      have hle := Int.le_ceil ((1 - b.tokens) / rlRefillRate)
      rw [div_le_iff₀ (by norm_num [rlRefillRate] : (0 : ℚ) < rlRefillRate)] at hle
      rw [hval]
      linarith
    · intro hge
      rw [hval]
      apply Int.ceil_le.mpr
      push_cast
      apply div_nonpos_of_nonpos_of_nonneg (by linarith)
      norm_num [rlRefillRate]

/-- Claim C6 witness: the amended statement applied to an unknown key and
to a drained bucket (0 tokens). -/
theorem getRetryAfter_formula_witness :
    getRetryAfter JsMap.empty "nobody" = 0 ∧
    getRetryAfter (JsMap.set JsMap.empty "client" ⟨0, 0⟩) "client" =
      ⌈(1 - (Bucket.mk 0 0).tokens) / rlRefillRate⌉ ∧
    0 ≤ getRetryAfter (JsMap.set JsMap.empty "client" ⟨0, 0⟩) "client" :=
  ⟨getRetryAfter_formula.1 JsMap.empty "nobody" rfl,
   (getRetryAfter_formula.2 _ "client" ⟨0, 0⟩ rfl).1,
   ((getRetryAfter_formula.2 _ "client" ⟨0, 0⟩ rfl).2.1 (by decide)).1⟩

/-- Claim C10 (counterexample): with a clock that moves backwards between
calls (`Date.now()` is not monotone), the signed refill drives the token
count below zero: after a call at t = 10000 ms and one at t = 0 the
bucket holds `min(100, 99 + (0 - 10000)/1000*10) = -1` tokens. -/
theorem rateLimiter_negative_tokens_counterexample :
    runCalls JsMap.empty [("c", 10000), ("c", 0)] "c" =
      some ⟨-1, 0⟩ ∧ ¬ (0 : ℚ) ≤ (-1 : ℚ) := by
  refine ⟨?_, by norm_num⟩
  have h1 : allowRequest JsMap.empty "c" 10000 =
      (true, JsMap.set JsMap.empty "c" ⟨rlCapacity - 1, 10000⟩) :=
    allowRequest_fresh _ _ _ rfl
  have h2 : refillBucket ⟨rlCapacity - 1, 10000⟩ 0 = ⟨-1, 0⟩ := by
    rw [refillBucket]
    norm_num [rlCapacity, rlRefillInterval, rlRefillRate]
  have h3 : allowRequest (JsMap.set JsMap.empty "c" ⟨rlCapacity - 1, 10000⟩)
      "c" 0 = (false, JsMap.set (JsMap.set JsMap.empty "c"
        ⟨rlCapacity - 1, 10000⟩) "c" ⟨-1, 0⟩) := by
    dsimp only [allowRequest]
    rw [jsMap_set_self]
    dsimp only [Option.getD]
    rw [h2]
    rw [if_neg (by norm_num)]
  rw [runCalls, h1, runCalls, h3, runCalls]
  dsimp only
  rw [jsMap_set_self]

/-- Bounds carried through a monotone call sequence: every stored bucket
has `0 ≤ tokens ≤ capacity` and a refill stamp no later than `t`. -/
def rlInv (m : JsMap Bucket) (t : ℤ) : Prop :=
  ∀ k b, m k = some b →
    0 ≤ b.tokens ∧ b.tokens ≤ rlCapacity ∧ b.lastRefillTime ≤ t

/-- Token bounds of a stored bucket (time-free). -/
def bucketOk (o : Option Bucket) : Prop :=
  ∀ b ∈ o, 0 ≤ b.tokens ∧ b.tokens ≤ rlCapacity

theorem refillBucket_bounds (b : Bucket) (t : ℤ) (h0 : 0 ≤ b.tokens)
    (hle : b.lastRefillTime ≤ t) :
    0 ≤ (refillBucket b t).tokens ∧ (refillBucket b t).tokens ≤ rlCapacity := by
  dsimp only [refillBucket]
  constructor
  · apply le_min
    · norm_num [rlCapacity]
    · have hadd : 0 ≤ ((t : ℚ) - (b.lastRefillTime : ℚ)) /
          rlRefillInterval * rlRefillRate := by
        apply mul_nonneg
        · apply div_nonneg
          · simp only [sub_nonneg, Int.cast_le]
            exact_mod_cast hle
          · norm_num [rlRefillInterval]
        · norm_num [rlRefillRate]
      linarith
  · exact min_le_left _ _

theorem allowRequest_rlInv (m : JsMap Bucket) (id : String) (t t' : ℤ)
    (h : rlInv m t) (ht : t ≤ t') : rlInv (allowRequest m id t').2 t' := by
  have hbkt : 0 ≤ (refillBucket ((m id).getD ⟨rlCapacity, t'⟩) t').tokens ∧
      (refillBucket ((m id).getD ⟨rlCapacity, t'⟩) t').tokens ≤ rlCapacity := by
    apply refillBucket_bounds
    · cases hmid : m id with
      | none => norm_num [rlCapacity]
      | some b => exact (h id b hmid).1
    · cases hmid : m id with
      | none => exact le_refl t'
      | some b => exact le_trans (h id b hmid).2.2 ht
  intro k b hkb
  dsimp only [allowRequest] at hkb
  by_cases hcond :
      1 ≤ (refillBucket ((m id).getD ⟨rlCapacity, t'⟩) t').tokens
  · rw [if_pos hcond] at hkb
    dsimp only [JsMap.set] at hkb
    by_cases hk : k = id
    · rw [if_pos hk] at hkb
      cases hkb
      refine ⟨?_, ?_, le_refl t'⟩
      · dsimp only
        linarith [hbkt.1, hcond]
      · dsimp only
        linarith [hbkt.2]
    · rw [if_neg hk] at hkb
      have := h k b hkb
      exact ⟨this.1, this.2.1, le_trans this.2.2 ht⟩
  · rw [if_neg hcond] at hkb
    dsimp only [JsMap.set] at hkb
    by_cases hk : k = id
    · rw [if_pos hk] at hkb
      cases hkb
      refine ⟨hbkt.1, hbkt.2, ?_⟩
      dsimp only [refillBucket]
      exact le_refl t'
    · rw [if_neg hk] at hkb
      have := h k b hkb
      exact ⟨this.1, this.2.1, le_trans this.2.2 ht⟩

theorem runCalls_inv :
    ∀ (calls : List (String × ℤ)) (m : JsMap Bucket) (t : ℤ), rlInv m t →
      List.Chain' (fun a b => a.2 ≤ b.2) calls →
      (∀ c ∈ calls.head?, t ≤ c.2) →
      ∀ k, bucketOk (runCalls m calls k)
  | [], m, t, hinv, _, _ => by
    intro k b hkb
    exact ⟨(hinv k b hkb).1, (hinv k b hkb).2.1⟩
  | (id, t') :: rest, m, t, hinv, hchain, hhead => by
    have ht : t ≤ t' := hhead (id, t') rfl
    have hinv' := allowRequest_rlInv m id t t' hinv ht
    have hchain' : List.Chain' (fun a b => a.2 ≤ b.2) rest := hchain.tail
    have hhead' : ∀ c ∈ rest.head?, t' ≤ c.2 := by
      cases rest with
      | nil => intro c hc; cases hc
      | cons r rs =>
        intro c hc
        cases hc
        exact (List.chain'_cons.mp hchain).1
    exact runCalls_inv rest (allowRequest m id t').2 t' hinv' hchain' hhead'

/-- Claim C10 (amended): for every *monotone* (non-decreasing) sequence of
call times, every bucket stored by the limiter keeps
`0 ≤ tokens ≤ capacity` — the refill clamps at capacity, a token is
consumed only when at least one is available, and fresh buckets start
full.  (Without monotonicity the bound fails; see the counterexample.) -/
theorem rateLimiter_tokens_bounded (calls : List (String × ℤ))
    (hmono : List.Chain' (fun a b => a.2 ≤ b.2) calls) :
    ∀ k, bucketOk (runCalls JsMap.empty calls k) := by
  cases calls with
  | nil =>
    intro k b hkb
    cases hkb
  | cons c rest =>
    apply runCalls_inv (c :: rest) JsMap.empty c.2
    · intro k b hkb
      cases hkb
    · exact hmono
    · intro d hd
      cases hd
      exact le_refl _

/-- Claim C10 witness: the bound applied to a concrete monotone two-call
sequence. -/
theorem rateLimiter_tokens_bounded_witness :
    bucketOk (runCalls JsMap.empty [("a", 0), ("b", 5)] "a") :=
  rateLimiter_tokens_bounded [("a", 0), ("b", 5)] (by simp) "a"

/-! ## Claims about the cache (C7, C9) -/

theorem jsMap_set_other {β : Type} (m : JsMap β) (k k' : String) (v : β)
    (h : k' ≠ k) : (m.set k v) k' = m k' := by
  simp [JsMap.set, h]

theorem jsMap_del_self {β : Type} (m : JsMap β) (k : String) :
    (m.del k) k = none := by
  simp [JsMap.del]

/-- A read of an absent key neither yields a value nor mutates the map. -/
theorem cacheGet_none {α : Type} (m : JsMap (CacheEntry α)) (k : String)
    (now : ℚ) (hk : m k = none) : cacheGet m k now = (none, m) := by
  dsimp only [cacheGet]
  rw [hk]

/-- A read of a present key either lazily expires it or returns it. -/
theorem cacheGet_some {α : Type} (m : JsMap (CacheEntry α)) (k : String)
    (now : ℚ) (e : CacheEntry α) (hk : m k = some e) :
    cacheGet m k now =
      if now > e.expires then (none, m.del k) else (some e.value, m) := by
  dsimp only [cacheGet]
  rw [hk]

/-- Claim C7 (counterexample): `set(k, v, {ttl: 0})` silently stores with
the default TTL of 300 s (`options.ttl || 300`), so a read 1 s later —
strictly more than the requested 0 s — still returns the value instead of
a miss. -/
theorem cache_ttl_zero_counterexample :
    (cacheGet (cacheSet (JsMap.empty : JsMap (CacheEntry ℕ)) "k" 7
      ⟨some 0, none⟩ 0) "k" 1000).1 = some 7 := by
  norm_num +decide [cacheGet, cacheSet, jsOrQ, JsMap.set, JsMap.empty]

/-- Claim C7 (amended): for every *positive* TTL `t`, a `set` (without
namespace) followed by an immediate `get` returns the value, and a `get`
performed strictly more than `t` seconds after the `set` misses and
discards the entry at read time.  (`t = 0` falls back to the 300 s
default, and a negative `t` expires immediately — the claim as stated
fails there.) -/
theorem cache_ttl_roundtrip {α : Type} (m : JsMap (CacheEntry α))
    (k : String) (v : α) (t now now' : ℚ) (ht : 0 < t) :
    (cacheGet (cacheSet m k v ⟨some t, none⟩ now) k now).1 = some v ∧
    (now + t * 1000 < now' →
      (cacheGet (cacheSet m k v ⟨some t, none⟩ now) k now').1 = none ∧
      (cacheGet (cacheSet m k v ⟨some t, none⟩ now) k now').2 k = none) := by
  have hset : cacheSet m k v ⟨some t, none⟩ now =
      m.set k ⟨v, now + t * 1000⟩ := by
    dsimp only [cacheSet, jsOrQ]
    rw [if_neg (ne_of_gt ht), String.empty_append]
  have hexp : (0 : ℚ) < t * 1000 := by positivity
  refine ⟨?_, ?_⟩
  · rw [hset]
    rw [cacheGet_some _ _ _ _ (jsMap_set_self m k _)]
    rw [if_neg (show ¬ now > now + t * 1000 by linarith)]
  · intro hlate
    rw [hset]
    rw [cacheGet_some _ _ _ _ (jsMap_set_self m k _)]
    rw [if_pos (show now' > now + t * 1000 from hlate)]
    exact ⟨rfl, jsMap_del_self _ _⟩

/-- Claim C7 witness: the amended round-trip at `ttl = 1 s`, set at `0 ms`,
read back at `0 ms` and at `2000 ms`. -/
theorem cache_ttl_roundtrip_witness :
    (cacheGet (cacheSet (JsMap.empty : JsMap (CacheEntry ℕ)) "k" 7
      ⟨some 1, none⟩ 0) "k" 0).1 = some 7 ∧
    (cacheGet (cacheSet (JsMap.empty : JsMap (CacheEntry ℕ)) "k" 7
      ⟨some 1, none⟩ 0) "k" 2000).1 = none :=
  ⟨(cache_ttl_roundtrip JsMap.empty "k" 7 1 0 2000 (by decide)).1,
   ((cache_ttl_roundtrip JsMap.empty "k" 7 1 0 2000 (by decide)).2
     (by simp only [zero_add, one_mul]; decide)).1⟩

/-- A namespaced key is never the bare key. -/
theorem ns_key_ne (ns k : String) : ns ++ ":" ++ k ≠ k := by
  intro h
  have h2 := congrArg String.length h
  simp only [String.length_append] at h2
  have h3 : (":" : String).length = 1 := rfl
  omega

/-- Claim C9: `set` with a non-empty namespace stores under
`ns + ":" + key` while `get` reads the bare key, so the namespaced write
is invisible to `get`, and `getOrSet` with a namespace never sees its own
cached write — it recomputes on every call. -/
theorem cache_namespace_write_skew {α : Type} (truthy : α → Bool)
    (m : JsMap (CacheEntry α)) (k ns : String) (v v2 : α) (t : Option ℚ)
    (now now2 : ℚ) (hns : ns ≠ "") :
    (cacheSet m k v ⟨t, some ns⟩ now) (ns ++ ":" ++ k) =
      some ⟨v, now + jsOrQ t 300 * 1000⟩ ∧
    (m k = none →
      (cacheGet (cacheSet m k v ⟨t, some ns⟩ now) k now2).1 = none) ∧
    (m k = none →
      (getOrSet truthy m k v ⟨t, some ns⟩ now).1 = v ∧
      (getOrSet truthy (getOrSet truthy m k v ⟨t, some ns⟩ now).2 k v2
        ⟨t, some ns⟩ now2).1 = v2) := by
  have hset : cacheSet m k v ⟨t, some ns⟩ now =
      m.set (ns ++ ":" ++ k) ⟨v, now + jsOrQ t 300 * 1000⟩ := by
    dsimp only [cacheSet]
    rw [if_neg hns]
  have hread : ∀ (m' : JsMap (CacheEntry α)) (v' : α) (nw : ℚ), m' k = none →
      (cacheSet m' k v' ⟨t, some ns⟩ nw) k = none := by
    intro m' v' nw hk
    dsimp only [cacheSet]
    rw [if_neg hns]
    rw [jsMap_set_other _ _ _ _ (ns_key_ne ns k).symm]
    exact hk
  refine ⟨?_, ?_, ?_⟩
  · rw [hset, jsMap_set_self]
  · intro hk
    dsimp only [cacheGet]
    rw [hread m v now hk]
  · intro hk
    have hfirst : getOrSet truthy m k v ⟨t, some ns⟩ now =
        (v, cacheSet m k v ⟨t, some ns⟩ now) := by
      dsimp only [getOrSet]
      rw [cacheGet_none m k now hk]
    refine ⟨by rw [hfirst], ?_⟩
    rw [hfirst]
    dsimp only [getOrSet]
    rw [cacheGet_none _ k now2 (hread m v now hk)]

/-- Claim C9 witness: with namespace `"app"`, a stored value is invisible
to `get` and `getOrSet` recomputes (returning the second call's freshly
computed value). -/
theorem cache_namespace_write_skew_witness :
    (cacheSet (JsMap.empty : JsMap (CacheEntry ℕ)) "k" 7
      ⟨some 1, some "app"⟩ 0) ("app" ++ ":" ++ "k") =
      some ⟨7, 0 + jsOrQ (some 1) 300 * 1000⟩ ∧
    (cacheGet (cacheSet (JsMap.empty : JsMap (CacheEntry ℕ)) "k" 7
      ⟨some 1, some "app"⟩ 0) "k" 0).1 = none ∧
    (getOrSet (fun n => n ≠ 0) (JsMap.empty : JsMap (CacheEntry ℕ)) "k" 7
      ⟨some 1, some "app"⟩ 0).1 = 7 ∧
    (getOrSet (fun n => n ≠ 0)
      (getOrSet (fun n => n ≠ 0) (JsMap.empty : JsMap (CacheEntry ℕ)) "k" 7
        ⟨some 1, some "app"⟩ 0).2 "k" 9 ⟨some 1, some "app"⟩ 5).1 = 9 :=
  ⟨(cache_namespace_write_skew (fun n => n ≠ 0) JsMap.empty "k" "app" 7 9
      (some 1) 0 5 (by decide)).1,
   (cache_namespace_write_skew (fun n => n ≠ 0) JsMap.empty "k" "app" 7 9
      (some 1) 0 5 (by decide)).2.1 rfl,
   ((cache_namespace_write_skew (fun n => n ≠ 0) JsMap.empty "k" "app" 7 9
      (some 1) 0 5 (by decide)).2.2 rfl).1,
   ((cache_namespace_write_skew (fun n => n ≠ 0) JsMap.empty "k" "app" 7 9
      (some 1) 0 5 (by decide)).2.2 rfl).2⟩

/-! ## Claims about retry with backoff (C8) -/

/-- The retry loop never invokes the operation more often than the number
of remaining attempts. -/
theorem retryFrom_calls_le {E A : Type} (f : Nat → Except E A)
    (delay backoff : ℚ) :
    ∀ (remaining attempt : Nat),
      (retryFrom f delay backoff remaining attempt).2.1 ≤ remaining
  | 0, _ => Nat.le_refl 0
  | r + 1, a => by
    rw [retryFrom_succ]
    cases hf : f a with
    | ok v =>
      dsimp only
      omega
    | error e =>
      dsimp only
      by_cases hr : r = 0
      · subst hr
        simp
      · rw [if_neg hr]
        have ih := retryFrom_calls_le f delay backoff r (a + 1)
        exact Nat.add_le_add_right ih 1

/-- When every attempt fails, the loop runs all remaining attempts, raises
the error of the last one, and emits one `onRetry` event with
`wait = delay * backoff ^ (attempt - 1)` before each attempt but the
last. -/
theorem retryFrom_all_fail {E A : Type} (f : Nat → Except E A)
    (err : Nat → E) (h : ∀ k, f k = Except.error (err k))
    (delay backoff : ℚ) :
    ∀ (rem attempt : Nat),
      retryFrom f delay backoff (rem + 1) attempt =
        (Except.error (some (err (attempt + rem))), rem + 1,
         (List.range rem).map
           (fun i => (attempt + i, err (attempt + i),
             delay * backoff ^ (attempt + i - 1))))
  | 0, a => by
    rw [retryFrom_succ, h a]
    simp
  | rem + 1, a => by
    rw [retryFrom_succ, h a]
    dsimp only
    rw [if_neg (by omega : ¬(rem + 1 = 0))]
    rw [retryFrom_all_fail f err h delay backoff rem (a + 1)]
    dsimp only
    refine congrArg₂ _ (by rw [Nat.add_assoc, Nat.add_comm 1 rem]) ?_
    refine congrArg₂ _ rfl ?_
    rw [List.range_succ_eq_map]
    simp only [List.map_cons, List.map_map]
    refine congrArg₂ _ (by rw [Nat.add_zero]) ?_
    apply List.map_congr_left
    intro i _
    simp only [Function.comp_apply]
    have h1 : a + 1 + i = a + (i + 1) := by omega
    rw [h1]

/-- Constant backoff: with multiplier 1 every `onRetry` event waits
exactly `delay`. -/
theorem retryFrom_backoff_one {E A : Type} (f : Nat → Except E A)
    (delay : ℚ) :
    ∀ (remaining attempt : Nat) (ev : Nat × E × ℚ),
      ev ∈ (retryFrom f delay 1 remaining attempt).2.2 → ev.2.2 = delay
  | 0, _, _ => by
    intro hev
    cases hev
  | r + 1, a, ev => by
    rw [retryFrom_succ]
    cases hf : f a with
    | ok v =>
      dsimp only
      intro hev
      cases hev
    | error e =>
      dsimp only
      by_cases hr : r = 0
      · subst hr
        rw [if_pos rfl]
        intro hev
        cases hev
      · rw [if_neg hr]
        dsimp only
        intro hev
        rcases List.mem_cons.mp hev with hhd | htl
        · rw [hhd]
          simp
        · exact retryFrom_backoff_one f delay r (a + 1) ev htl

/-- Claim C8: bounded retry with backoff.
1. The operation is invoked at most `maxAttempts` (default 3) times.
2. If every attempt fails, `retry` performs exactly `n` invocations,
   re-raises the last observed error, and between attempt `k` and `k+1`
   (for `1 ≤ k < n`) invokes the observer with the attempt number and the
   error and waits `delay * backoff ^ (k-1)`.
3. A backoff multiplier of 1 yields the same constant `delay` before
   every retry.
4. A multiplier greater than 1 yields strictly growing delays. -/
theorem retry_behavior {E A : Type} :
    (∀ (f : Nat → Except E A) (options : RetryOptions),
      (retry f options).2.1 ≤ jsOrNat options.maxAttempts 3) ∧
    (∀ (f : Nat → Except E A) (err : Nat → E) (n : Nat) (d bo : ℚ),
      (∀ k, f k = Except.error (err k)) → 1 ≤ n →
      retryFrom f d bo n 1 =
        (Except.error (some (err n)), n,
         (List.range (n - 1)).map
           (fun i => (i + 1, err (i + 1), d * bo ^ i)))) ∧
    (∀ (f : Nat → Except E A) (d : ℚ) (rem a : Nat) (ev : Nat × E × ℚ),
      ev ∈ (retryFrom f d 1 rem a).2.2 → ev.2.2 = d) ∧
    (∀ (d bo : ℚ), 0 < d → 1 < bo → ∀ i : Nat,
      d * bo ^ i < d * bo ^ (i + 1)) := by
  refine ⟨?_, ?_, ?_, ?_⟩
  · intro f options
    exact retryFrom_calls_le f _ _ (jsOrNat options.maxAttempts 3) 1
  · intro f err n d bo hf hn
    obtain ⟨rem, rfl⟩ : ∃ rem, n = rem + 1 := ⟨n - 1, by omega⟩
    rw [retryFrom_all_fail f err hf d bo rem 1]
    refine congrArg₂ _ (by rw [Nat.add_comm]) ?_
    refine congrArg₂ _ rfl ?_
    rw [Nat.add_sub_cancel]
    apply List.map_congr_left
    intro i _
    rw [Nat.add_comm 1 i, Nat.add_sub_cancel]
  · intro f d rem a ev hev
    exact retryFrom_backoff_one f d rem a ev hev
  · intro d bo hd hbo i
    have hpow : (0 : ℚ) < bo ^ i := pow_pos (by linarith) i
    calc d * bo ^ i = d * bo ^ i * 1 := by ring
    _ < d * bo ^ i * bo := by
        apply mul_lt_mul_of_pos_left hbo
        exact mul_pos hd hpow
    _ = d * bo ^ (i + 1) := by ring

/-- Claim C8 witness: three always-failing attempts with `delay = 5` and
`backoff = 1`, plus the growth fact at `delay = 5`, `backoff = 2`. -/
theorem retry_behavior_witness :
    (retry (fun _ => Except.error (0 : ℕ)) (A := ℕ)
      { maxAttempts := some 3, delay := some 5, backoff := some 1 }).2.1 ≤
      jsOrNat (some 3) 3 ∧
    retryFrom (fun k => Except.error (k : ℕ)) (A := ℕ) 5 1 3 1 =
      (Except.error (some 3), 3,
       (List.range 2).map (fun i => (i + 1, i + 1, (5 : ℚ) * 1 ^ i))) ∧
    ((1, 1, (5 : ℚ) * 1 ^ (1 - 1)) ∈
      (retryFrom (fun k => Except.error (k : ℕ)) (A := ℕ) 5 1 3 1).2.2 →
      ((1 : ℕ), (1 : ℕ), (5 : ℚ) * 1 ^ (1 - 1)).2.2 = 5) ∧
    (5 : ℚ) * 2 ^ 0 < 5 * 2 ^ (0 + 1) :=
  ⟨(retry_behavior (E := ℕ) (A := ℕ)).1 (fun _ => Except.error 0)
     { maxAttempts := some 3, delay := some 5, backoff := some 1 },
   (retry_behavior (E := ℕ) (A := ℕ)).2.1 (fun k => Except.error k)
     (fun k => k) 3 5 1 (fun _ => rfl) (by decide),
   fun hmem => (retry_behavior (E := ℕ) (A := ℕ)).2.2.1
     (fun k => Except.error k) 5 3 1 _ hmem,
   (retry_behavior (E := ℕ) (A := ℕ)).2.2.2 5 2 (by decide) (by decide) 0⟩
